import Mathlib

/-!
# Verification of the SteeringLife simulation core

Shallow embedding of the SteeringLife repository (src/steering_agent.rs,
src/food.rs, src/main.rs).  `f32`/`f64` values are idealised as exact real
numbers `ℝ`; 2-D vectors (`glam::Vec2`) are pairs of reals.  The one place
where IEEE behaviour escapes the real-number idealisation — normalising the
zero vector, which in glam yields not-a-number components — is modelled
separately by the `Option`-valued steering-force functions, where `none`
stands for "the vector has NaN components".

Randomness: the Rust code threads a single `rand::Rng` through every call.
It is modelled as an oracle carrying two streams and their cursors:
`bools n` gives the outcome of the n-th `gen_bool p` call whose probability
is strictly between 0 and 1 (`gen_bool 0.0` is always `false`, `gen_bool 1.0`
always `true`, exactly as `rand::distributions::Bernoulli` behaves), and
`units n` gives the n-th uniform unit draw; `gen_range lo hi` returns
`lo + u * (hi - lo)`, which lies in `[lo, hi)` whenever `0 ≤ u < 1`.
-/

noncomputable section

open Classical

/-- `glam::Vec2`, components idealised as reals. -/
structure V2 where
  x : ℝ
  y : ℝ

namespace V2

instance : Add V2 := ⟨fun a b => ⟨a.x + b.x, a.y + b.y⟩⟩
instance : Sub V2 := ⟨fun a b => ⟨a.x - b.x, a.y - b.y⟩⟩
instance : Zero V2 := ⟨⟨0, 0⟩⟩

/-- Scalar multiplication `v * k` on `glam::Vec2`. -/
def smul (v : V2) (k : ℝ) : V2 := ⟨v.x * k, v.y * k⟩

/-- `Vec2::length_squared` (`self.dot(self)`). -/
def lengthSq (v : V2) : ℝ := v.x * v.x + v.y * v.y

/-- `Vec2::length`. -/
def length (v : V2) : ℝ := Real.sqrt v.lengthSq

/-- `Vec2::distance_squared(self, rhs) = (self - rhs).length_squared()`. -/
def distanceSq (a b : V2) : ℝ := (a - b).lengthSq

/-- `Vec2::normalize` = `self * self.length_recip()` — real-valued
idealisation, valid for non-zero vectors.  (On the zero vector the real
IEEE computation produces NaN components; see `normalizeNaN`.) -/
def normalize (v : V2) : V2 := v.smul (1 / v.length)

/-- `Vec2::clamp_length_max(self, max)`:
`if length_sq > max * max { max * (self / sqrt(length_sq)) } else { self }`. -/
def clampLengthMax (v : V2) (max : ℝ) : V2 :=
  if v.lengthSq > max * max then v.smul (max / Real.sqrt v.lengthSq) else v

/-- `nannou::math::Vec2Angle::angle` (`self.y.atan2(self.x)`), expressed as
the complex argument of `x + y i`. -/
def angle (v : V2) : ℝ := Complex.arg ⟨v.x, v.y⟩

@[simp] theorem add_x (a b : V2) : (a + b).x = a.x + b.x := rfl
@[simp] theorem add_y (a b : V2) : (a + b).y = a.y + b.y := rfl
@[simp] theorem sub_x (a b : V2) : (a - b).x = a.x - b.x := rfl
@[simp] theorem sub_y (a b : V2) : (a - b).y = a.y - b.y := rfl
@[simp] theorem zero_x : (0 : V2).x = 0 := rfl
@[simp] theorem zero_y : (0 : V2).y = 0 := rfl
@[simp] theorem smul_x (v : V2) (k : ℝ) : (v.smul k).x = v.x * k := rfl
@[simp] theorem smul_y (v : V2) (k : ℝ) : (v.smul k).y = v.y * k := rfl

theorem lengthSq_nonneg (v : V2) : 0 ≤ v.lengthSq := by
  have hx := mul_self_nonneg v.x
  have hy := mul_self_nonneg v.y
  unfold lengthSq; linarith

theorem length_nonneg (v : V2) : 0 ≤ v.length := Real.sqrt_nonneg _

theorem lengthSq_smul (v : V2) (k : ℝ) : (v.smul k).lengthSq = k ^ 2 * v.lengthSq := by
  simp only [lengthSq, smul_x, smul_y]; ring

theorem length_smul (v : V2) (k : ℝ) : (v.smul k).length = |k| * v.length := by
  rw [length, lengthSq_smul, Real.sqrt_mul (sq_nonneg k), Real.sqrt_sq_eq_abs, length]

/-- The clamped vector never exceeds the bound (for a non-negative bound). -/
theorem length_clampLengthMax_le (v : V2) (m : ℝ) (hm : 0 ≤ m) :
    (v.clampLengthMax m).length ≤ m := by
  unfold clampLengthMax
  split
  · rename_i h
    have hsqpos : 0 < v.lengthSq := lt_of_le_of_lt (mul_self_nonneg m) h
    have hs : 0 < Real.sqrt v.lengthSq := Real.sqrt_pos.mpr hsqpos
    rw [length_smul, abs_of_nonneg (div_nonneg hm hs.le), length,
      div_mul_cancel₀ _ (ne_of_gt hs)]
  · rename_i h
    push_neg at h
    calc v.length = Real.sqrt v.lengthSq := rfl
      _ ≤ Real.sqrt (m * m) := Real.sqrt_le_sqrt h
      _ = m := Real.sqrt_mul_self hm

end V2

/-- The shared random source, modelled as an oracle: a stream of Bernoulli
outcomes (for `gen_bool` with probability strictly between 0 and 1) and
a stream of uniform unit draws (for `gen_range`), with cursors. -/
structure Rng where
  bools : ℕ → Bool
  units : ℕ → ℝ
  b : ℕ
  u : ℕ

namespace Rng

/-- Advance the Bernoulli cursor. -/
def nextB (s : Rng) : Rng := { s with b := s.b + 1 }

/-- Advance the unit-draw cursor. -/
def nextU (s : Rng) : Rng := { s with u := s.u + 1 }

/-- `Rng::gen_bool(p)`: always `false` for `p = 0.0`, always `true` for
`p = 1.0` (as in `rand`), otherwise the next Bernoulli outcome. -/
def genBool (p : ℝ) (s : Rng) : Bool × Rng :=
  if p ≤ 0 then (false, s.nextB)
  else if 1 ≤ p then (true, s.nextB)
  else (s.bools s.b, s.nextB)

/-- `Rng::gen_range(lo..hi)`: `lo + u * (hi - lo)` for the next unit draw
`u`; lies in `[lo, hi)` whenever `0 ≤ u < 1` and `lo < hi`. -/
def genRange (lo hi : ℝ) (s : Rng) : ℝ × Rng :=
  (lo + s.units s.u * (hi - lo), s.nextU)

/-- A well-formed random source: every unit draw lies in `[0, 1)`. -/
def Wf (s : Rng) : Prop := ∀ n, 0 ≤ s.units n ∧ s.units n < 1

@[simp] theorem nextB_bools (s : Rng) : s.nextB.bools = s.bools := rfl
@[simp] theorem nextB_units (s : Rng) : s.nextB.units = s.units := rfl
@[simp] theorem nextB_u (s : Rng) : s.nextB.u = s.u := rfl
@[simp] theorem nextU_bools (s : Rng) : s.nextU.bools = s.bools := rfl
@[simp] theorem nextU_units (s : Rng) : s.nextU.units = s.units := rfl
@[simp] theorem nextU_b (s : Rng) : s.nextU.b = s.b := rfl

end Rng

/-- `Dna` (src/steering_agent.rs): the 8 heritable traits. -/
structure Dna where
  hue : ℝ
  max_velocity : ℝ
  max_steer_force : ℝ
  arrive_threshold : ℝ
  food_detection_radius : ℝ
  food_force_multiplier : ℝ
  poison_detection_radius : ℝ
  poison_force_multiplier : ℝ

namespace Dna

/-- `impl Into<[f32; 8]> for Dna`: the fixed trait ordering of the array. -/
def intoArray (d : Dna) : Fin 8 → ℝ :=
  ![d.max_velocity, d.max_steer_force, d.arrive_threshold,
    d.food_detection_radius, d.food_force_multiplier,
    d.poison_detection_radius, d.poison_force_multiplier, d.hue]

/-- `impl From<[f32; 8]> for Dna`. -/
def fromArray (value : Fin 8 → ℝ) : Dna where
  hue := value 7
  max_velocity := value 0
  max_steer_force := value 1
  arrive_threshold := value 2
  food_detection_radius := value 3
  food_force_multiplier := value 4
  poison_detection_radius := value 5
  poison_force_multiplier := value 6

theorem fromArray_intoArray (d : Dna) : fromArray d.intoArray = d := by
  cases d; rfl

theorem intoArray_fromArray (value : Fin 8 → ℝ) :
    (fromArray value).intoArray = value := by
  funext i
  fin_cases i <;> rfl

/-- One iteration of the mutation loop
(`if rng.gen_bool(mutate_chance) { dna_array[i] *= rng.gen_range(0.93..1.07) }`). -/
def mutateStep (mutate_chance : ℝ) (st : (Fin 8 → ℝ) × Rng) (i : Fin 8) :
    (Fin 8 → ℝ) × Rng :=
  let (arr, rng) := st
  let (hit, rng1) := rng.genBool mutate_chance
  if hit then
    let (factor, rng2) := rng1.genRange 0.93 1.07
    (Function.update arr i (arr i * factor), rng2)
  else (arr, rng1)

/-- `Dna::mutate`: convert to the trait array, run the loop over the 8
indices in order, convert back. -/
def mutate (d : Dna) (mutate_chance : ℝ) (rng : Rng) : Dna × Rng :=
  let res := (List.finRange 8).foldl (mutateStep mutate_chance) (d.intoArray, rng)
  (fromArray res.1, res.2)

/-- `Dna::random`: traits drawn in struct-literal order. -/
def random (rng : Rng) : Dna × Rng :=
  let hue := rng.genRange 0 1
  let mv := hue.2.genRange 2.5 5
  let msf := mv.2.genRange 0.075 0.2
  let at_ := msf.2.genRange 48 64
  let fdr := at_.2.genRange 64 192
  let ffm := fdr.2.genRange 0.75 1.25
  let pdr := ffm.2.genRange 64 192
  let pfm := pdr.2.genRange 0.75 1.25
  (⟨hue.1, mv.1, msf.1, at_.1, fdr.1, ffm.1, pdr.1, pfm.1⟩, pfm.2)

end Dna

/-- `Food` (src/food.rs): food or poison, disambiguated by the sign of
`saturation`. -/
structure Food where
  position : V2
  hue : ℝ
  radius : ℝ
  saturation : ℝ

namespace Food

/-- `Food::new`. -/
def new (position : V2) (saturation : ℝ) (rng : Rng) : Food × Rng :=
  let hr :=
    if saturation < 0 then rng.genRange 0 0.10 else rng.genRange 0.25 0.40
  (⟨position, hr.1, |saturation| * 0.5, saturation⟩, hr.2)

/-- `Food::new_food`: saturation drawn from `[15, 25)`. -/
def new_food (position : V2) (rng : Rng) : Food × Rng :=
  let s := rng.genRange 15 25
  new position s.1 s.2

/-- `Food::new_poison`: saturation drawn from `[15, 25)` then negated. -/
def new_poison (position : V2) (rng : Rng) : Food × Rng :=
  let s := rng.genRange 15 25
  new position (-s.1) s.2

end Food

/-- `SteeringAgent` (src/steering_agent.rs).  The `age` field is not in the
struct definition as captured under src/, but it is read and written by
src/main.rs and the spec documents it ("age (elapsed simulated seconds)");
it is declared here with f32 default 0, like the other `Default` fields. -/
structure SteeringAgent where
  position : V2
  velocity : V2
  acceleration : V2
  direction : ℝ
  hunger : ℝ
  age : ℝ
  wander_target : Option V2
  dna : Dna

namespace SteeringAgent

/-- `SteeringAgent::new(position, dna)`: every other field takes its
`Default` value. -/
def new (position : V2) (dna : Dna) : SteeringAgent where
  position := position
  velocity := 0
  acceleration := 0
  direction := 0
  hunger := 0
  age := 0
  wander_target := none
  dna := dna

/-- `apply_force`. -/
def apply_force (a : SteeringAgent) (force : V2) : SteeringAgent :=
  { a with acceleration := a.acceleration + force }

/-- `update_position`. -/
def update_position (a : SteeringAgent) : SteeringAgent :=
  let min_velocity_threshold : ℝ := 0.01
  let v1 := a.velocity + a.acceleration
  let v2 := if v1.length < min_velocity_threshold then (0 : V2) else v1
  let dir := if v2.length > 0 then v2.angle else a.direction
  let v3 := v2.clampLengthMax a.dna.max_velocity
  { a with
    velocity := v3
    direction := dir
    position := a.position + v3
    acceleration := 0 }

/-- `update_hunger`. -/
def update_hunger (a : SteeringAgent) : SteeringAgent :=
  { a with hunger := a.hunger + 0.2 }

/-- `update`. -/
def update (a : SteeringAgent) : SteeringAgent :=
  a.update_position.update_hunger

/-- `map_range` (src/steering_agent.rs). -/
def map_range (value in_min in_max out_min out_max : ℝ) : ℝ :=
  out_min + (value - in_min) * (out_max - out_min) / (in_max - in_min)

/-- `seek` — real-valued idealisation (the NaN behaviour of normalising a
zero difference vector is modelled by `seekSteeringForceNaN`). -/
def seek (a : SteeringAgent) (target : V2) (force_multiplier : ℝ) : SteeringAgent :=
  let desired_velocity := (target - a.position).normalize.smul a.dna.max_velocity
  let steering_force := (desired_velocity - a.velocity).clampLengthMax a.dna.max_steer_force
  a.apply_force (steering_force.smul force_multiplier)

/-- `arrive` — real-valued idealisation (the NaN behaviour of normalising a
zero difference vector is modelled by `arriveSteeringForceNaN`). -/
def arrive (a : SteeringAgent) (target : V2) (force_multiplier : ℝ) : SteeringAgent :=
  let position_difference := target - a.position
  let distance := position_difference.length
  let desired_velocity :=
    if distance < a.dna.arrive_threshold then
      let arrive_speed := map_range distance 0 a.dna.arrive_threshold 0 a.dna.max_velocity
      position_difference.normalize.smul arrive_speed
    else
      position_difference.normalize.smul a.dna.max_velocity
  let steering_force := (desired_velocity - a.velocity).clampLengthMax a.dna.max_steer_force
  a.apply_force (steering_force.smul force_multiplier)

/-- `flee`. -/
def flee (a : SteeringAgent) (target : V2) (force_multiplier : ℝ) : SteeringAgent :=
  let desired_velocity := (target - a.position).normalize.smul a.dna.max_velocity
  let steering_force := (desired_velocity - a.velocity).clampLengthMax a.dna.max_steer_force
  a.apply_force ((steering_force.smul (-1)).smul force_multiplier)

/-- `get_random_position` (src/steering_agent.rs): a uniform point in the
rectangle of width `w` and height `h` centred at the origin. -/
def get_random_position (w h : ℝ) (rng : Rng) : V2 × Rng :=
  let rx := rng.genRange (-w / 2) (w / 2)
  let ry := rx.2.genRange (-h / 2) (h / 2)
  (⟨rx.1, ry.1⟩, ry.2)

/-- `wander`. -/
def wander (a : SteeringAgent) (w h : ℝ) (rng : Rng) : SteeringAgent × Rng :=
  let war : V2 × SteeringAgent × Rng :=
    match a.wander_target with
    | some wt => (wt, a, rng)
    | none =>
      let r := get_random_position w h rng
      (r.1, { a with wander_target := some r.1 }, r.2)
  let wt := war.1
  let a2 := war.2.1.arrive wt 1.0
  let a3 :=
    if a2.position.distanceSq wt < 16 then { a2 with wander_target := none } else a2
  (a3, war.2.2)

end SteeringAgent

/-! ## IEEE NaN model of the steering-force computation

glam's `normalize` computes `self * (1 / self.length())`.  On the zero
vector `1 / 0.0 = +inf` and `0.0 * inf = NaN`, so both components of the
result are NaN.  NaN then propagates through every subsequent operation of
`seek`/`arrive`: scaling by any factor (including `0.0`, since
`NaN * 0.0 = NaN`), vector subtraction, and `clamp_length_max` (whose
`length_sq > max * max` comparison is false on NaN, returning the NaN
vector unchanged), and finally into the acceleration accumulator.
`none` below stands for the all-NaN vector. -/

/-- `Vec2::normalize` with its IEEE zero-vector behaviour: the zero vector
normalises to the NaN vector (`none`). -/
def normalizeNaN (v : V2) : Option V2 :=
  if v.x = 0 ∧ v.y = 0 then none else some v.normalize

/-- The steering force accumulated by `seek`, NaN-aware. -/
def seekSteeringForceNaN (a : SteeringAgent) (target : V2) (force_multiplier : ℝ) :
    Option V2 :=
  (normalizeNaN (target - a.position)).map fun u =>
    (((u.smul a.dna.max_velocity) - a.velocity).clampLengthMax a.dna.max_steer_force).smul
      force_multiplier

/-- The steering force accumulated by `arrive`, NaN-aware. -/
def arriveSteeringForceNaN (a : SteeringAgent) (target : V2) (force_multiplier : ℝ) :
    Option V2 :=
  let position_difference := target - a.position
  let distance := position_difference.length
  let desired_velocity : Option V2 :=
    if distance < a.dna.arrive_threshold then
      (normalizeNaN position_difference).map fun u =>
        u.smul (SteeringAgent.map_range distance 0 a.dna.arrive_threshold 0 a.dna.max_velocity)
    else
      (normalizeNaN position_difference).map fun u => u.smul a.dna.max_velocity
  desired_velocity.map fun dv =>
    ((dv - a.velocity).clampLengthMax a.dna.max_steer_force).smul force_multiplier

/-! ## src/main.rs — the population controller -/

/-- The comparison against the running closest distance, whose initial
value is `f32::INFINITY` (`none`): every finite distance beats infinity. -/
def cdLt (d : ℝ) : Option ℝ → Prop
  | none => True
  | some c => d < c

/-- The loop body of `find_closest_food`, index-carrying. -/
def find_closest_food_go (position : V2) (max_distance_squared : ℝ) :
    ℕ → List Food → Option (ℕ × Food) → Option ℝ → Option (ℕ × Food)
  | _, [], closest, _ => closest
  | index, f :: rest, closest, closest_distance =>
    let distance := position.distanceSq f.position
    if distance < max_distance_squared ∧ cdLt distance closest_distance then
      find_closest_food_go position max_distance_squared (index + 1) rest
        (some (index, f)) (some distance)
    else
      find_closest_food_go position max_distance_squared (index + 1) rest
        closest closest_distance

/-- `find_closest_food` (src/main.rs): linear scan, strict comparisons,
squared distances; ties keep the earliest index. -/
def find_closest_food (position : V2) (max_distance : ℝ) (food : List Food) :
    Option (ℕ × Food) :=
  find_closest_food_go position (max_distance ^ 2) 0 food none none

/-- The state threaded through the `retain_mut` pass over the agents. -/
structure StepState where
  food : List Food
  poison : List Food
  rng : Rng
  newborns : List SteeringAgent
  ageSum : ℝ
  agentCount : ℕ

/-- The `model.poison.retain(...)` scan inside the agent pass: returns the
retained poison list, the `touched_poison` flag, and the agent (which
accumulates `flee` forces for poison inside its detection radius). -/
def poisonPass (agent : SteeringAgent) : List Food → List Food × Bool × SteeringAgent
  | [] => ([], false, agent)
  | poison :: rest =>
    let distance_squared := agent.position.distanceSq poison.position
    if distance_squared < poison.radius ^ 2 then
      let r := poisonPass agent rest
      (r.1, true, r.2.2)
    else
      let a1 :=
        if distance_squared < agent.dna.poison_detection_radius ^ 2 then
          agent.flee poison.position agent.dna.poison_force_multiplier
        else agent
      let r := poisonPass a1 rest
      (poison :: r.1, r.2.1, r.2.2)

/-- The `hunger > max_hunger_before_search` branch (src/main.rs lines
166-181): find the closest in-range food, arrive at it, consume it when
the agent's position lies within its radius; otherwise wander. -/
def foodBranch (w h : ℝ) (agent : SteeringAgent) (food : List Food) (rng : Rng) :
    SteeringAgent × List Food × Rng :=
  match find_closest_food agent.position agent.dna.food_detection_radius food with
  | some (index, f) =>
    let a1 := agent.arrive f.position agent.dna.food_force_multiplier
    if a1.position.distanceSq f.position < f.radius ^ 2 then
      ({ a1 with hunger := a1.hunger - f.saturation }, food.eraseIdx index, rng)
    else
      (a1, food, rng)
  | none =>
    let r := agent.wander w h rng
    (r.1, food, r.2)

/-- One agent's processing inside `model.agents.retain_mut(...)`: returns
the retain flag, the processed agent, and the updated threaded state. -/
def processAgent (follow_mouse : Bool) (mouse : V2) (w h delta : ℝ)
    (st : StepState) (agent : SteeringAgent) : Bool × SteeringAgent × StepState :=
  if follow_mouse then
    let a1 := agent.arrive mouse 1.0
    let a2 := { a1 with hunger := 0 }
    (true, a2.update, st)
  else
    let a1 := { agent with age := agent.age + delta }
    let st1 := { st with ageSum := st.ageSum + a1.age, agentCount := st.agentCount + 1 }
    let pp := poisonPass a1 st1.poison
    let touched := pp.2.1
    let a2 := pp.2.2
    let st2 := { st1 with poison := pp.1 }
    let branch : Bool × SteeringAgent × List Food × Rng :=
      if touched then
        (false, a2, st2.food, st2.rng)
      else if a2.hunger > 128 then
        (false, a2, st2.food, st2.rng)
      else if a2.hunger > 20 then
        let fb := foodBranch w h a2 st2.food st2.rng
        (true, fb.1, fb.2.1, fb.2.2)
      else
        let wr := a2.wander w h st2.rng
        (true, wr.1, st2.food, wr.2)
    let should_retain := branch.1
    let a4 := branch.2.1.update
    let rc := branch.2.2.2.genBool 0.001
    let born : List SteeringAgent × Rng :=
      if rc.1 then
        let md := a4.dna.mutate 0.75 rc.2
        (st2.newborns ++ [SteeringAgent.new a4.position md.1], md.2)
      else (st2.newborns, rc.2)
    (should_retain, a4,
      { st2 with food := branch.2.2.1, rng := born.2, newborns := born.1 })

/-- The whole `retain_mut` pass: processes the agents in order, keeping the
processed agent exactly when its retain flag is true. -/
def agentsPass (follow_mouse : Bool) (mouse : V2) (w h delta : ℝ) :
    List SteeringAgent → List SteeringAgent → StepState →
    List SteeringAgent × StepState
  | [], kept, st => (kept, st)
  | agent :: rest, kept, st =>
    let r := processAgent follow_mouse mouse w h delta st agent
    agentsPass follow_mouse mouse w h delta rest
      (if r.1 then kept ++ [r.2.1] else kept) r.2.2

/-- The food replenishment loop body: `difference` iterations, each gated
by `gen_bool(0.3)`. -/
def foodFill (w h : ℝ) : ℕ → List Food → Rng → List Food × Rng
  | 0, food, rng => (food, rng)
  | n + 1, food, rng =>
    let gate := rng.genBool 0.3
    if gate.1 then
      let pos := SteeringAgent.get_random_position w h gate.2
      let f := Food.new_food pos.1 pos.2
      foodFill w h n (food ++ [f.1]) f.2
    else
      foodFill w h n food gate.2

/-- The poison replenishment loop body: always pushes. -/
def poisonFill (w h : ℝ) : ℕ → List Food → Rng → List Food × Rng
  | 0, poison, rng => (poison, rng)
  | n + 1, poison, rng =>
    let pos := SteeringAgent.get_random_position w h rng
    let f := Food.new_poison pos.1 pos.2
    poisonFill w h n (poison ++ [f.1]) f.2

/-- The agent replenishment loop body: always pushes a fresh random agent. -/
def agentFill (w h : ℝ) : ℕ → List SteeringAgent → Rng → List SteeringAgent × Rng
  | 0, agents, rng => (agents, rng)
  | n + 1, agents, rng =>
    let pos := SteeringAgent.get_random_position w h rng
    let dr := Dna.random pos.2
    agentFill w h n (agents ++ [SteeringAgent.new pos.1 dr.1]) dr.2

/-- Food replenishment (src/main.rs lines 202-214). -/
def replenishFood (w h : ℝ) (minimum_food_count : ℕ) (food : List Food) (rng : Rng) :
    List Food × Rng :=
  if food.length < minimum_food_count then
    foodFill w h (minimum_food_count - food.length) food rng
  else (food, rng)

/-- Poison replenishment (src/main.rs lines 216-226). -/
def replenishPoison (w h : ℝ) (minimum_poison_count : ℕ) (poison : List Food)
    (rng : Rng) : List Food × Rng :=
  if poison.length < minimum_poison_count then
    poisonFill w h (minimum_poison_count - poison.length) poison rng
  else (poison, rng)

/-- Agent replenishment (src/main.rs lines 228-238). -/
def replenishAgents (w h : ℝ) (minimum_agent_count : ℕ)
    (agents : List SteeringAgent) (rng : Rng) : List SteeringAgent × Rng :=
  if agents.length < minimum_agent_count then
    agentFill w h (minimum_agent_count - agents.length) agents rng
  else (agents, rng)

/-- The simulation state owned by the controller (`Model`, minus the
presentation-only `egui` handle and `debug` flag, which no core logic
reads). -/
structure Model where
  rng : Rng
  agents : List SteeringAgent
  food : List Food
  poison : List Food
  minimum_food_count : ℕ
  minimum_poison_count : ℕ
  minimum_agent_count : ℕ
  follow_mouse : Bool

namespace Main

/-- The per-tick `update` (src/main.rs): the `retain_mut` pass over the
agents, the average-age statistic, newborn insertion, and the three
replenishment passes.  Returns the new model and the average-age readout;
`none` stands for the NaN produced by `0.0 / 0.0` when the agent count is
zero (the statistic is only displayed, never stored in the model). -/
def update (m : Model) (delta : ℝ) (mouse : V2) (w h : ℝ) : Model × Option ℝ :=
  let st0 : StepState := ⟨m.food, m.poison, m.rng, [], 0, 0⟩
  let pass := agentsPass m.follow_mouse mouse w h delta m.agents [] st0
  let st := pass.2
  let average_age : Option ℝ :=
    if st.agentCount = 0 then none else some (st.ageSum / (st.agentCount : ℝ))
  let agents1 := pass.1 ++ st.newborns
  let rf := replenishFood w h m.minimum_food_count st.food st.rng
  let rp := replenishPoison w h m.minimum_poison_count st.poison rf.2
  let ra := replenishAgents w h m.minimum_agent_count agents1 rp.2
  ({ m with
      rng := ra.2
      agents := ra.1
      food := rf.1
      poison := rp.1 },
   average_age)

end Main

/-! ## Helper lemmas about the mutation loop -/

namespace Dna

/-- Each loop iteration either leaves the array alone (miss) or multiplies
the `i`-th entry by the freshly drawn factor (hit). -/
theorem mutateStep_cases (p : ℝ) (arr : Fin 8 → ℝ) (rng : Rng) (j : Fin 8) :
    mutateStep p (arr, rng) j = (arr, rng.nextB) ∨
    mutateStep p (arr, rng) j =
      (Function.update arr j (arr j * (0.93 + rng.units rng.u * (1.07 - 0.93))),
        rng.nextB.nextU) := by
  unfold mutateStep Rng.genBool Rng.genRange
  split_ifs with h1 h2
  · exact Or.inl rfl
  · exact Or.inr (by simp)
  · cases h : rng.bools rng.b
    · simp [h]
    · simp [h]

theorem foldl_mutateStep_units (p : ℝ) :
    ∀ (l : List (Fin 8)) (arr : Fin 8 → ℝ) (rng : Rng),
      (l.foldl (mutateStep p) (arr, rng)).2.units = rng.units := by
  intro l
  induction l with
  | nil => intro arr rng; rfl
  | cons j rest ih =>
    intro arr rng
    rcases mutateStep_cases p arr rng j with h | h <;>
      simp [List.foldl, h, ih]

theorem foldl_mutateStep_notMem (p : ℝ) :
    ∀ (l : List (Fin 8)) (arr : Fin 8 → ℝ) (rng : Rng) (i : Fin 8), i ∉ l →
      (l.foldl (mutateStep p) (arr, rng)).1 i = arr i := by
  intro l
  induction l with
  | nil => intro arr rng i _; rfl
  | cons j rest ih =>
    intro arr rng i hi
    have hij : i ≠ j := fun h => hi (h ▸ List.mem_cons_self j rest)
    have hirest : i ∉ rest := fun h => hi (List.mem_cons_of_mem j h)
    rcases mutateStep_cases p arr rng j with h | h <;>
      simp [List.foldl, h, ih _ _ _ hirest, Function.update_noteq hij]

/-- With probability 1 every index in a duplicate-free index list gets
multiplied by exactly one factor of the form `0.93 + u * 0.14`. -/
theorem foldl_mutateStep_one_mem :
    ∀ (l : List (Fin 8)) (arr : Fin 8 → ℝ) (rng : Rng), rng.Wf → l.Nodup →
      ∀ i ∈ l, ∃ f : ℝ, 0.93 ≤ f ∧ f < 1.07 ∧
        (l.foldl (mutateStep 1) (arr, rng)).1 i = arr i * f := by
  intro l
  induction l with
  | nil => intro arr rng _ _ i hi; exact absurd hi (List.not_mem_nil i)
  | cons j rest ih =>
    intro arr rng hw hn i hi
    have hstep : mutateStep 1 (arr, rng) j =
        (Function.update arr j (arr j * (0.93 + rng.units rng.u * (1.07 - 0.93))),
          rng.nextB.nextU) := by
      unfold mutateStep Rng.genBool Rng.genRange
      norm_num
    have hw' : rng.nextB.nextU.Wf := by
      intro n; exact hw n
    have hfb : (0.93 : ℝ) ≤ 0.93 + rng.units rng.u * (1.07 - 0.93) := by
      have := (hw rng.u).1
      nlinarith
    have hfl : (0.93 : ℝ) + rng.units rng.u * (1.07 - 0.93) < 1.07 := by
      have := (hw rng.u).2
      nlinarith
    rcases List.mem_cons.mp hi with rfl | hmem
    · refine ⟨0.93 + rng.units rng.u * (1.07 - 0.93), hfb, hfl, ?_⟩
      have hnotin : i ∉ rest := (List.nodup_cons.mp hn).1
      simp only [List.foldl, hstep]
      rw [foldl_mutateStep_notMem 1 rest _ _ i hnotin, Function.update_same]
    · obtain ⟨f, hf1, hf2, hf3⟩ :=
        ih (Function.update arr j (arr j * (0.93 + rng.units rng.u * (1.07 - 0.93))))
          rng.nextB.nextU hw' (List.nodup_cons.mp hn).2 i hmem
      have hij : i ≠ j := by
        rintro rfl; exact (List.nodup_cons.mp hn).1 hmem
      refine ⟨f, hf1, hf2, ?_⟩
      simp only [List.foldl, hstep]
      rw [hf3, Function.update_noteq hij]

/-- With probability 0 the loop never touches the array. -/
theorem foldl_mutateStep_zero :
    ∀ (l : List (Fin 8)) (arr : Fin 8 → ℝ) (rng : Rng),
      (l.foldl (mutateStep 0) (arr, rng)).1 = arr := by
  intro l
  induction l with
  | nil => intro arr rng; rfl
  | cons j rest ih =>
    intro arr rng
    have hstep : mutateStep 0 (arr, rng) j = (arr, rng.nextB) := by
      unfold mutateStep Rng.genBool
      norm_num
    simp [List.foldl, hstep, ih]

/-- Two reals have the same sign. -/
def SameSign (a b : ℝ) : Prop :=
  (0 < a → 0 < b) ∧ (a = 0 → b = 0) ∧ (a < 0 → b < 0)

theorem sameSign_refl (a : ℝ) : SameSign a a := ⟨id, id, id⟩

theorem foldl_mutateStep_sameSign (p : ℝ) :
    ∀ (l : List (Fin 8)) (arr : Fin 8 → ℝ) (rng : Rng), rng.Wf →
      ∀ i, SameSign (arr i) ((l.foldl (mutateStep p) (arr, rng)).1 i) := by
  intro l
  induction l with
  | nil => intro arr rng _ i; exact sameSign_refl _
  | cons j rest ih =>
    intro arr rng hw i
    rcases mutateStep_cases p arr rng j with h | h
    · simpa [List.foldl, h] using ih arr rng.nextB (fun n => hw n) i
    · have hw' : rng.nextB.nextU.Wf := fun n => hw n
      have ih' :=
        ih (Function.update arr j (arr j * (0.93 + rng.units rng.u * (1.07 - 0.93))))
          rng.nextB.nextU hw' i
      simp only [List.foldl, h]
      have hfpos : (0 : ℝ) < 0.93 + rng.units rng.u * (1.07 - 0.93) := by
        have := (hw rng.u).1
        nlinarith
      by_cases hij : i = j
      · subst hij
        refine ⟨fun ha => ih'.1 ?_, fun ha => ih'.2.1 ?_, fun ha => ih'.2.2 ?_⟩
        · rw [Function.update_same]; exact mul_pos ha hfpos
        · rw [Function.update_same, ha, zero_mul]
        · rw [Function.update_same]; exact mul_neg_of_neg_of_pos ha hfpos
      · refine ⟨fun ha => ih'.1 ?_, fun ha => ih'.2.1 ?_, fun ha => ih'.2.2 ?_⟩ <;>
          rw [Function.update_noteq hij] <;> [exact ha; exact ha; exact ha]

end Dna

/-! ## Concrete fixtures used by witnesses and counterexamples -/

/-- A concrete genome. -/
def dnaW : Dna :=
  { hue := 0.5
    max_velocity := 5
    max_steer_force := 10
    arrive_threshold := 4
    food_detection_radius := 10
    food_force_multiplier := 1
    poison_detection_radius := 0
    poison_force_multiplier := 1 }

/-- A random source whose Bernoulli draws are all `true` and whose unit
draws are all `1/2`. -/
def rngTrue : Rng := ⟨fun _ => true, fun _ => 1 / 2, 0, 0⟩

/-- A random source whose Bernoulli draws are all `false` and whose unit
draws are all `0`. -/
def rngFalse : Rng := ⟨fun _ => false, fun _ => 0, 0, 0⟩

theorem rngTrue_wf : rngTrue.Wf := fun _ => ⟨by norm_num [rngTrue], by norm_num [rngTrue]⟩

theorem rngFalse_wf : rngFalse.Wf := fun _ => ⟨le_refl 0, zero_lt_one⟩

/-- A concrete agent. -/
def agentW : SteeringAgent :=
  { position := ⟨0, 0⟩
    velocity := ⟨3, 4⟩
    acceleration := ⟨0, 0⟩
    direction := 0
    hunger := 0
    age := 0
    wander_target := none
    dna := dnaW }

/-! ## Claim C1 -/

/-- C1 (code evidence): for every agent and every force multiplier, when
the target equals the agent's position, the steering force computed by
`arrive` — and likewise by `seek` — is the NaN vector (`none`), not the
zero vector: the code normalises the zero difference vector without any
special case, and the NaN propagates into the accumulated force.  This
contradicts the claim, which demands a zero force and no NaN. -/
theorem arrive_seek_at_own_position_give_nan (a : SteeringAgent) (fm : ℝ) :
    arriveSteeringForceNaN a a.position fm = none ∧
    seekSteeringForceNaN a a.position fm = none := by
  have hz : normalizeNaN (a.position - a.position) = none := by
    simp [normalizeNaN]
  constructor
  · simp only [arriveSteeringForceNaN, hz, Option.map_none]
    split <;> rfl
  · simp only [seekSteeringForceNaN, hz]
    rfl

/-! ## Claim C4 -/

/-- C4: for every genome and well-formed random source, `mutate` with
probability 0 returns the genome unchanged trait-for-trait, and `mutate`
with probability 1 multiplies each of the 8 traits by some factor in
`[0.93, 1.07)`. -/
theorem mutate_prob_zero_id_prob_one_scales (d : Dna) (rng : Rng) (hw : rng.Wf) :
    (d.mutate 0 rng).1 = d ∧
    ∀ i : Fin 8, ∃ f : ℝ, 0.93 ≤ f ∧ f < 1.07 ∧
      (d.mutate 1 rng).1.intoArray i = d.intoArray i * f := by
  constructor
  · show Dna.fromArray _ = d
    rw [Dna.foldl_mutateStep_zero, Dna.fromArray_intoArray]
  · intro i
    obtain ⟨f, h1, h2, h3⟩ :=
      Dna.foldl_mutateStep_one_mem (List.finRange 8) d.intoArray rng hw
        (List.nodup_finRange 8) i (List.mem_finRange i)
    refine ⟨f, h1, h2, ?_⟩
    show (Dna.fromArray _).intoArray i = _
    rw [Dna.intoArray_fromArray]
    exact h3

/-- C4 witness: the theorem applied at a concrete genome and random
source. -/
theorem mutate_prob_zero_id_prob_one_scales_witness :
    rngFalse.Wf ∧
    ((dnaW.mutate 0 rngFalse).1 = dnaW ∧
      ∀ i : Fin 8, ∃ f : ℝ, 0.93 ≤ f ∧ f < 1.07 ∧
        (dnaW.mutate 1 rngFalse).1.intoArray i = dnaW.intoArray i * f) :=
  ⟨rngFalse_wf, mutate_prob_zero_id_prob_one_scales dnaW rngFalse rngFalse_wf⟩

/-! ## Claim C5 -/

/-- C5: for every agent state with a non-negative `max_velocity` trait,
the velocity magnitude after `update` is at most `max_velocity`. -/
theorem update_velocity_le_max_velocity (a : SteeringAgent)
    (hm : 0 ≤ a.dna.max_velocity) :
    a.update.velocity.length ≤ a.dna.max_velocity := by
  show ((a.update_position).update_hunger).velocity.length ≤ _
  simp only [SteeringAgent.update_hunger, SteeringAgent.update_position]
  exact V2.length_clampLengthMax_le _ _ hm

/-- C5 witness: the theorem applied at a concrete agent. -/
theorem update_velocity_le_max_velocity_witness :
    0 ≤ agentW.dna.max_velocity ∧
    agentW.update.velocity.length ≤ agentW.dna.max_velocity :=
  ⟨by norm_num [agentW, dnaW], update_velocity_le_max_velocity agentW (by norm_num [agentW, dnaW])⟩

/-! ## Claim C9 -/

/-- C9: converting a `Dna` to its 8-element trait array and back, or an
array to a `Dna` and back, is the identity — the `Into` and `From`
conversions use the same fixed trait ordering. -/
theorem dna_array_roundtrip :
    (∀ d : Dna, Dna.fromArray d.intoArray = d) ∧
    (∀ value : Fin 8 → ℝ, (Dna.fromArray value).intoArray = value) :=
  ⟨Dna.fromArray_intoArray, Dna.intoArray_fromArray⟩

/-! ## Claim C10 -/

/-- C10: for every genome, mutation probability and well-formed random
source, each trait returned by `mutate` has the same sign as the
corresponding input trait: the mutation factor is always strictly
positive, so a positive trait stays positive, zero stays zero, and a
negative trait stays negative. -/
theorem mutate_preserves_sign (d : Dna) (p : ℝ) (rng : Rng) (hw : rng.Wf)
    (i : Fin 8) :
    (0 < d.intoArray i → 0 < (d.mutate p rng).1.intoArray i) ∧
    (d.intoArray i = 0 → (d.mutate p rng).1.intoArray i = 0) ∧
    (d.intoArray i < 0 → (d.mutate p rng).1.intoArray i < 0) := by
  have h := Dna.foldl_mutateStep_sameSign p (List.finRange 8) d.intoArray rng hw i
  have harr : (d.mutate p rng).1.intoArray =
      ((List.finRange 8).foldl (Dna.mutateStep p) (d.intoArray, rng)).1 := by
    show (Dna.fromArray _).intoArray = _
    rw [Dna.intoArray_fromArray]
  rw [harr]
  exact h

/-- C10 witness: the theorem applied at a concrete genome, probability and
random source. -/
theorem mutate_preserves_sign_witness :
    rngTrue.Wf ∧
    ((0 < dnaW.intoArray 0 → 0 < (dnaW.mutate 0.5 rngTrue).1.intoArray 0) ∧
      (dnaW.intoArray 0 = 0 → (dnaW.mutate 0.5 rngTrue).1.intoArray 0 = 0) ∧
      (dnaW.intoArray 0 < 0 → (dnaW.mutate 0.5 rngTrue).1.intoArray 0 < 0)) :=
  ⟨rngTrue_wf, mutate_preserves_sign dnaW 0.5 rngTrue rngTrue_wf 0⟩

/-! ## Claim C6 -/

/-- Removing the `i`-th element keeps every element at a different index. -/
theorem get_mem_eraseIdx :
    ∀ (l : List Food) (i j : ℕ) (hj : j < l.length), j ≠ i →
      l.get ⟨j, hj⟩ ∈ l.eraseIdx i := by
  intro l
  induction l with
  | nil => intro i j hj _; exact absurd hj (by simp)
  | cons x xs ih =>
    intro i j hj hji
    cases i with
    | zero =>
      cases j with
      | zero => exact absurd rfl hji
      | succ k => simpa [List.eraseIdx] using List.get_mem xs _
    | succ m =>
      cases j with
      | zero => simp [List.eraseIdx]
      | succ k =>
        have hk : k < xs.length := Nat.lt_of_succ_lt_succ hj
        have : xs.get ⟨k, hk⟩ ∈ xs.eraseIdx m := ih m k hk (fun h => hji (by omega))
        simpa [List.eraseIdx] using Or.inr this

/-- C6: when a hungry agent's position lies within the radius of the
closest in-range food, the food branch reduces its hunger by exactly that
food's saturation and erases exactly that index from the food list, every
other food item remaining. -/
theorem hungry_agent_consumption_exact (w h : ℝ) (agent : SteeringAgent)
    (food : List Food) (rng : Rng) (i : ℕ) (f : Food)
    (hhungry : agent.hunger > 20)
    (hfind : find_closest_food agent.position agent.dna.food_detection_radius food
      = some (i, f))
    (hin : agent.position.distanceSq f.position < f.radius ^ 2) :
    (foodBranch w h agent food rng).1.hunger = agent.hunger - f.saturation ∧
    (foodBranch w h agent food rng).2.1 = food.eraseIdx i ∧
    ∀ (j : ℕ) (hj : j < food.length), j ≠ i →
      food.get ⟨j, hj⟩ ∈ (foodBranch w h agent food rng).2.1 := by
  have hb : foodBranch w h agent food rng =
      ({ agent.arrive f.position agent.dna.food_force_multiplier with
          hunger := (agent.arrive f.position agent.dna.food_force_multiplier).hunger
            - f.saturation },
        food.eraseIdx i, rng) := by
    unfold foodBranch
    rw [hfind]
    exact if_pos hin
  refine ⟨?_, ?_, ?_⟩
  · rw [hb]
    rfl
  · rw [hb]
  · intro j hj hji
    rw [hb]
    exact get_mem_eraseIdx food i j hj hji

/-- A concrete hungry agent for the C6 witness. -/
def agentHungry : SteeringAgent := { agentW with hunger := 25 }

/-- A concrete food item for the C6 witness. -/
def foodW : Food := { position := ⟨1, 0⟩, hue := 0.3, radius := 2, saturation := 5 }

/-- C6 witness: the theorem applied at a concrete agent and food list. -/
theorem hungry_agent_consumption_exact_witness :
    (foodBranch 100 100 agentHungry [foodW] rngFalse).1.hunger
        = agentHungry.hunger - foodW.saturation ∧
    (foodBranch 100 100 agentHungry [foodW] rngFalse).2.1 = [foodW].eraseIdx 0 ∧
    ∀ (j : ℕ) (hj : j < [foodW].length), j ≠ 0 →
      [foodW].get ⟨j, hj⟩ ∈ (foodBranch 100 100 agentHungry [foodW] rngFalse).2.1 := by
  have h1 : agentHungry.hunger > 20 := by norm_num [agentHungry, agentW]
  have h2 : find_closest_food agentHungry.position
      agentHungry.dna.food_detection_radius [foodW] = some (0, foodW) := by
    unfold find_closest_food find_closest_food_go
    rw [if_pos ⟨by norm_num [agentHungry, agentW, dnaW, foodW, V2.distanceSq, V2.lengthSq],
      trivial⟩]
    rfl
  have h3 : agentHungry.position.distanceSq foodW.position < foodW.radius ^ 2 := by
    norm_num [agentHungry, agentW, foodW, V2.distanceSq, V2.lengthSq]
  exact hungry_agent_consumption_exact 100 100 agentHungry [foodW] rngFalse 0 foodW h1 h2 h3

/-! ## Claim C7 -/

theorem poisonFill_length (w h : ℝ) :
    ∀ (n : ℕ) (l : List Food) (rng : Rng),
      (poisonFill w h n l rng).1.length = l.length + n := by
  intro n
  induction n with
  | zero => intro l rng; simp [poisonFill]
  | succ m ih =>
    intro l rng
    simp only [poisonFill]
    rw [ih]
    simp
    omega

theorem agentFill_length (w h : ℝ) :
    ∀ (n : ℕ) (l : List SteeringAgent) (rng : Rng),
      (agentFill w h n l rng).1.length = l.length + n := by
  intro n
  induction n with
  | zero => intro l rng; simp [agentFill]
  | succ m ih =>
    intro l rng
    simp only [agentFill]
    rw [ih]
    simp
    omega

theorem foodFill_length_le (w h : ℝ) :
    ∀ (n : ℕ) (l : List Food) (rng : Rng),
      (foodFill w h n l rng).1.length ≤ l.length + n := by
  intro n
  induction n with
  | zero => intro l rng; simp [foodFill]
  | succ m ih =>
    intro l rng
    simp only [foodFill]
    split
    · exact le_trans (ih _ _)
        (by simp only [List.length_append, List.length_singleton]; omega)
    · exact le_trans (ih _ _) (by omega)

/-- C7: when a collection is below its configured minimum, the poison and
agent replenishment passes bring it to exactly the minimum, while the food
pass (gated per missing slot by `gen_bool(0.3)`) adds at most the deficit
`N`, so the food count never exceeds the previous count plus `N`. -/
theorem replenishment_counts (w h : ℝ) (food poison : List Food)
    (agents : List SteeringAgent) (rng1 rng2 rng3 : Rng) (mF mP mA : ℕ)
    (hf : food.length < mF) (hp : poison.length < mP) (ha : agents.length < mA) :
    (replenishPoison w h mP poison rng2).1.length = mP ∧
    (replenishAgents w h mA agents rng3).1.length = mA ∧
    (replenishFood w h mF food rng1).1.length ≤ food.length + (mF - food.length) := by
  refine ⟨?_, ?_, ?_⟩
  · unfold replenishPoison
    rw [if_pos hp, poisonFill_length]
    omega
  · unfold replenishAgents
    rw [if_pos ha, agentFill_length]
    omega
  · unfold replenishFood
    rw [if_pos hf]
    exact foodFill_length_le w h _ food rng1

/-- C7 witness: the theorem applied at concrete collections and minimums. -/
theorem replenishment_counts_witness :
    (replenishPoison 100 100 1 ([] : List Food) rngTrue).1.length = 1 ∧
    (replenishAgents 100 100 1 ([] : List SteeringAgent) rngTrue).1.length = 1 ∧
    (replenishFood 100 100 1 ([] : List Food) rngTrue).1.length ≤
      ([] : List Food).length + (1 - ([] : List Food).length) :=
  replenishment_counts 100 100 [] [] [] rngTrue rngTrue rngTrue 1 1 1
    (by norm_num) (by norm_num) (by norm_num)

/-! ## Helper lemmas about the per-agent pass -/

theorem flee_hunger (a : SteeringAgent) (t : V2) (fm : ℝ) :
    (a.flee t fm).hunger = a.hunger := rfl

theorem flee_position (a : SteeringAgent) (t : V2) (fm : ℝ) :
    (a.flee t fm).position = a.position := rfl

theorem poisonPass_hunger (a : SteeringAgent) :
    ∀ l : List Food, (poisonPass a l).2.2.hunger = a.hunger := by
  intro l
  induction l generalizing a with
  | nil => rfl
  | cons p rest ih =>
    show (if _ then _ else _ : List Food × Bool × SteeringAgent).2.2.hunger = _
    split
    · exact ih a
    · show (poisonPass (if _ then _ else _) rest).2.2.hunger = _
      split
      · exact (ih _).trans (flee_hunger a p.position a.dna.poison_force_multiplier)
      · exact ih a

theorem poisonPass_position (a : SteeringAgent) :
    ∀ l : List Food, (poisonPass a l).2.2.position = a.position := by
  intro l
  induction l generalizing a with
  | nil => rfl
  | cons p rest ih =>
    show (if _ then _ else _ : List Food × Bool × SteeringAgent).2.2.position = _
    split
    · exact ih a
    · show (poisonPass (if _ then _ else _) rest).2.2.position = _
      split
      · exact (ih _).trans (flee_position a p.position a.dna.poison_force_multiplier)
      · exact ih a

/-- The `touched_poison` flag is set exactly when some scanned poison is in
contact with the agent (the agent's position never changes during the
scan, only its acceleration). -/
theorem poisonPass_touched (a : SteeringAgent) :
    ∀ l : List Food, (poisonPass a l).2.1 = true ↔
      ∃ p ∈ l, a.position.distanceSq p.position < p.radius ^ 2 := by
  intro l
  induction l generalizing a with
  | nil => simp [poisonPass]
  | cons p rest ih =>
    show (if _ then _ else _ : List Food × Bool × SteeringAgent).2.1 = true ↔ _
    split
    · rename_i hc
      simp only [List.mem_cons]
      exact ⟨fun _ => ⟨p, Or.inl rfl, hc⟩, fun _ => trivial⟩
    · rename_i hnc
      have step : ∀ a1 : SteeringAgent, a1.position = a.position →
          ((poisonPass a1 rest).2.1 = true ↔
            ∃ q ∈ p :: rest, a.position.distanceSq q.position < q.radius ^ 2) := by
        intro a1 hpos
        rw [ih a1, hpos]
        simp only [List.mem_cons]
        constructor
        · rintro ⟨q, hq, hqc⟩; exact ⟨q, Or.inr hq, hqc⟩
        · rintro ⟨q, hq | hq, hqc⟩
          · exact absurd (hq ▸ hqc) hnc
          · exact ⟨q, hq, hqc⟩
      show (poisonPass (if _ then _ else _) rest).2.1 = true ↔ _
      split
      · exact step _ (flee_position a p.position a.dna.poison_force_multiplier)
      · exact step a rfl

/-! ## Claim C3 -/

/-- C3 counterexample fixture: a starving agent (hunger 200 > 128). -/
def agentStarved : SteeringAgent := { agentW with hunger := 200, age := 7 }

/-- C3 counterexample fixture: follow-mouse mode is active. -/
def modelFollow : Model :=
  { rng := rngFalse
    agents := [agentStarved]
    food := []
    poison := []
    minimum_food_count := 0
    minimum_poison_count := 0
    minimum_agent_count := 0
    follow_mouse := true }

/-- C3 counterexample: with the follow-target override active, an agent
whose hunger (200) exceeds 128 at tick start is NOT removed: after the
tick the live set still holds the same agent (age 7, inherited from the
original; hunger reset to 0 and then incremented to 0.2 by `update`),
refuting "removed ... regardless of any other condition (including the
follow-target override mode being active)". -/
theorem starving_agent_survives_follow_cex :
    agentStarved.hunger > 128 ∧
    ((Main.update modelFollow 1 ⟨0, 0⟩ 100 100).1.agents.map fun a => a.age) = [7] ∧
    ((Main.update modelFollow 1 ⟨0, 0⟩ 100 100).1.agents.map fun a => a.hunger)
      = [0.2] := by
  refine ⟨by norm_num [agentStarved, agentW], ?_, ?_⟩ <;>
    norm_num [Main.update, agentsPass, processAgent, replenishFood, replenishPoison,
      replenishAgents, modelFollow, agentStarved, agentW, SteeringAgent.update,
      SteeringAgent.update_hunger, SteeringAgent.update_position,
      SteeringAgent.arrive, SteeringAgent.apply_force]

/-- C3 (amended): when the follow-target override is NOT active, an agent
whose hunger exceeds 128 at tick start is not retained by the per-agent
pass, whatever the rest of the state (the poison-contact branch and the
starvation branch both clear the retain flag; hunger is unchanged by the
preceding poison scan). -/
theorem starving_agent_not_retained (mouse : V2) (w h delta : ℝ)
    (st : StepState) (agent : SteeringAgent) (hstarve : agent.hunger > 128) :
    (processAgent false mouse w h delta st agent).1 = false := by
  have hhu : (poisonPass { agent with age := agent.age + delta } st.poison).2.2.hunger
      = agent.hunger := poisonPass_hunger _ st.poison
  simp only [processAgent, Bool.false_eq_true, if_false]
  have hs2 : (poisonPass { agent with age := agent.age + delta } st.poison).2.2.hunger
      > 128 := by rw [hhu]; exact hstarve
  by_cases ht : (poisonPass { agent with age := agent.age + delta } st.poison).2.1 = true
  · rw [if_pos ht]
  · rw [if_neg ht, if_pos hs2]

/-- Auxiliary state for step-level witnesses. -/
def stW : StepState := ⟨[], [], rngFalse, [], 0, 0⟩

/-- C3 witness: the amended theorem applied at a concrete state. -/
theorem starving_agent_not_retained_witness :
    agentStarved.hunger > 128 ∧
    (processAgent false ⟨0, 0⟩ 100 100 1 stW agentStarved).1 = false :=
  ⟨by norm_num [agentStarved, agentW],
    starving_agent_not_retained ⟨0, 0⟩ 100 100 1 stW agentStarved
      (by norm_num [agentStarved, agentW])⟩

/-! ## Claim C2 -/

/-- C2 counterexample fixture: an agent moving right, sitting on a poison. -/
def agentOnPoison : SteeringAgent := { agentW with velocity := ⟨1, 0⟩ }

/-- C2 counterexample fixture: a poison at the agent's position. -/
def poisonAt0 : Food := { position := ⟨0, 0⟩, hue := 0.05, radius := 1, saturation := -2 }

/-- C2 counterexample fixture. -/
def modelPoison : Model :=
  { rng := rngTrue
    agents := [agentOnPoison]
    food := []
    poison := [poisonAt0]
    minimum_food_count := 0
    minimum_poison_count := 0
    minimum_agent_count := 0
    follow_mouse := false }

/-- C2 counterexample: the single agent starts on a poison (distance 0 <
radius 1), so it takes the poisoned removal branch — yet after the tick
the live set holds exactly one agent: a newborn spawned by the poisoned
agent's reproduction step, at position (1,0) — the parent's position
AFTER `update` integrated its velocity (1,0) — with newborn hunger 0.
So the poisoned agent did receive `update` and did spawn a newborn,
refuting the claim. -/
theorem poisoned_agent_still_spawns_newborn_cex :
    agentOnPoison.position.distanceSq poisonAt0.position < poisonAt0.radius ^ 2 ∧
    ((Main.update modelPoison 1 ⟨0, 0⟩ 100 100).1.agents.map
      fun a => (a.position.x, a.position.y, a.hunger)) = [(1, 0, 0)] ∧
    (Main.update modelPoison 1 ⟨0, 0⟩ 100 100).1.poison = [] := by
  refine ⟨by norm_num [agentOnPoison, agentW, poisonAt0, V2.distanceSq, V2.lengthSq],
    ?_, ?_⟩ <;>
    norm_num [Main.update, agentsPass, processAgent, poisonPass, replenishFood,
      replenishPoison, replenishAgents, modelPoison, agentOnPoison, agentW, dnaW,
      poisonAt0, SteeringAgent.update, SteeringAgent.update_hunger,
      SteeringAgent.update_position, SteeringAgent.new, Rng.genBool, rngTrue,
      V2.distanceSq, V2.lengthSq, V2.length, V2.clampLengthMax, Real.sqrt_one]

/-- C2 (amended): an agent taken by the poisoned or starved removal branch
is indeed not retained, but it still receives the `update` call
(physics integration and the 0.2 hunger increment) and still runs the
reproduction step: when the reproduction draw fires, a newborn is
appended, positioned at the dying agent's post-`update` position with a
mutation of its genome. -/
theorem poisoned_or_starved_still_updated_and_reproducing (mouse : V2)
    (w h delta : ℝ) (st : StepState) (agent : SteeringAgent)
    (hkill : (∃ p ∈ st.poison,
        agent.position.distanceSq p.position < p.radius ^ 2) ∨ agent.hunger > 128)
    (hrng : st.rng.bools st.rng.b = true) :
    (processAgent false mouse w h delta st agent).1 = false ∧
    (processAgent false mouse w h delta st agent).2.2.newborns =
      st.newborns ++ [SteeringAgent.new
        ((poisonPass { agent with age := agent.age + delta } st.poison).2.2.update).position
        ((((poisonPass { agent with age := agent.age + delta }
            st.poison).2.2.update).dna.mutate 0.75 st.rng.nextB).1)] := by
  have hhu : (poisonPass { agent with age := agent.age + delta } st.poison).2.2.hunger
      = agent.hunger := poisonPass_hunger _ st.poison
  have hgb : Rng.genBool 0.001 st.rng = (true, st.rng.nextB) := by
    unfold Rng.genBool
    rw [if_neg (by norm_num), if_neg (by norm_num), hrng]
  simp only [processAgent, Bool.false_eq_true, if_false]
  by_cases ht : (poisonPass { agent with age := agent.age + delta } st.poison).2.1 = true
  · rw [if_pos ht]
    refine ⟨rfl, ?_⟩
    simp [hgb]
  · have hstarve : agent.hunger > 128 := by
      refine hkill.resolve_left fun hc => ht ?_
      exact (poisonPass_touched { agent with age := agent.age + delta } st.poison).mpr hc
    have hs2 : (poisonPass { agent with age := agent.age + delta } st.poison).2.2.hunger
        > 128 := by rw [hhu]; exact hstarve
    rw [if_neg ht, if_pos hs2]
    refine ⟨rfl, ?_⟩
    simp [hgb]

/-- C2 witness fixture: a step state holding one poison at the origin. -/
def stPoison : StepState := ⟨[], [poisonAt0], rngTrue, [], 0, 0⟩

/-- C2 witness: the amended theorem applied at a concrete state with a
poison in contact and a firing reproduction draw. -/
theorem poisoned_or_starved_still_updated_and_reproducing_witness :
    ((∃ p ∈ stPoison.poison,
        agentOnPoison.position.distanceSq p.position < p.radius ^ 2) ∨
      agentOnPoison.hunger > 128) ∧
    stPoison.rng.bools stPoison.rng.b = true ∧
    ((processAgent false ⟨0, 0⟩ 100 100 1 stPoison agentOnPoison).1 = false ∧
      (processAgent false ⟨0, 0⟩ 100 100 1 stPoison agentOnPoison).2.2.newborns =
        stPoison.newborns ++ [SteeringAgent.new
          ((poisonPass { agentOnPoison with age := agentOnPoison.age + 1 }
            stPoison.poison).2.2.update).position
          ((((poisonPass { agentOnPoison with age := agentOnPoison.age + 1 }
              stPoison.poison).2.2.update).dna.mutate 0.75 stPoison.rng.nextB).1)]) :=
  ⟨Or.inl ⟨poisonAt0, by simp [stPoison], by
      norm_num [agentOnPoison, agentW, poisonAt0, V2.distanceSq, V2.lengthSq]⟩,
    rfl,
    poisoned_or_starved_still_updated_and_reproducing ⟨0, 0⟩ 100 100 1 stPoison
      agentOnPoison
      (Or.inl ⟨poisonAt0, by simp [stPoison], by
        norm_num [agentOnPoison, agentW, poisonAt0, V2.distanceSq, V2.lengthSq]⟩)
      rfl⟩

/-! ## Claim C8 -/

/-- Every non-follow agent contributes its post-aging age to the
average-age accumulator and bumps the counter, whatever branch it takes. -/
theorem processAgent_ageSum (mouse : V2) (w h delta : ℝ) (st : StepState)
    (agent : SteeringAgent) :
    (processAgent false mouse w h delta st agent).2.2.ageSum
        = st.ageSum + (agent.age + delta) ∧
    (processAgent false mouse w h delta st agent).2.2.agentCount
        = st.agentCount + 1 :=
  ⟨rfl, rfl⟩

/-- In follow-mouse mode the threaded state is untouched. -/
theorem agentsPass_follow_state (mouse : V2) (w h delta : ℝ) :
    ∀ (agents kept : List SteeringAgent) (st : StepState),
      (agentsPass true mouse w h delta agents kept st).2 = st := by
  intro agents
  induction agents with
  | nil => intro kept st; rfl
  | cons a rest ih => intro kept st; exact ih _ st

/-- Outside follow-mouse mode, the pass accumulates the aged age of every
processed agent — removed agents included — and counts them all. -/
theorem agentsPass_stat (mouse : V2) (w h delta : ℝ) :
    ∀ (agents kept : List SteeringAgent) (st : StepState),
      (agentsPass false mouse w h delta agents kept st).2.ageSum
          = st.ageSum + ((agents.map fun a => a.age + delta).sum) ∧
      (agentsPass false mouse w h delta agents kept st).2.agentCount
          = st.agentCount + agents.length := by
  intro agents
  induction agents with
  | nil => intro kept st; simp [agentsPass]
  | cons a rest ih =>
    intro kept st
    have h1 := processAgent_ageSum mouse w h delta st a
    have h2 := ih (if (processAgent false mouse w h delta st a).1 then
        kept ++ [(processAgent false mouse w h delta st a).2.1] else kept)
      (processAgent false mouse w h delta st a).2.2
    show (agentsPass false mouse w h delta rest _ _).2.ageSum = _ ∧
      (agentsPass false mouse w h delta rest _ _).2.agentCount = _
    rw [h2.1, h2.2, h1.1, h1.2]
    constructor
    · simp [List.map_cons, List.sum_cons]
      ring
    · simp [List.length_cons]
      omega

/-- C8 (amended): outside follow-mouse mode, the per-tick average-age
statistic equals the sum of `age + delta` over ALL agents processed this
tick — agents removed this tick included, newborns excluded — divided by
the number of processed agents; with follow-mouse active no agent is
counted, and the zero count yields the undefined sentinel (`none`,
standing for the NaN of `0.0 / 0.0`) instead of crashing.  The statistic
is returned alongside the model and is not stored in it. -/
theorem average_age_formula (m : Model) (delta : ℝ) (mouse : V2) (w h : ℝ) :
    (m.follow_mouse = false →
      (Main.update m delta mouse w h).2 =
        if m.agents.length = 0 then none
        else some (((m.agents.map fun a => a.age + delta).sum) / (m.agents.length : ℝ))) ∧
    (m.follow_mouse = true → (Main.update m delta mouse w h).2 = none) := by
  constructor
  · intro hf
    have hst := agentsPass_stat mouse w h delta m.agents []
      ⟨m.food, m.poison, m.rng, [], 0, 0⟩
    show (if (agentsPass m.follow_mouse mouse w h delta m.agents []
        ⟨m.food, m.poison, m.rng, [], 0, 0⟩).2.agentCount = 0 then none
      else some _) = _
    rw [hf, hst.1, hst.2]
    simp
  · intro hf
    have hst := agentsPass_follow_state mouse w h delta m.agents []
      ⟨m.food, m.poison, m.rng, [], 0, 0⟩
    show (if (agentsPass m.follow_mouse mouse w h delta m.agents []
        ⟨m.food, m.poison, m.rng, [], 0, 0⟩).2.agentCount = 0 then none
      else some _) = _
    rw [hf, hst]
    rfl

/-- C8 counterexample fixture: an agent (age 10) sitting on the poison. -/
def agentA8 : SteeringAgent := { agentW with velocity := ⟨0, 0⟩, age := 10 }

/-- C8 counterexample fixture: a far-away wandering agent (age 20). -/
def agentB8 : SteeringAgent :=
  { position := ⟨100, 0⟩
    velocity := ⟨0, 0⟩
    acceleration := ⟨0, 0⟩
    direction := 0
    hunger := 0
    age := 20
    wander_target := some ⟨103, 4⟩
    dna := dnaW }

/-- C8 counterexample fixture: two agents, one of which dies of poison
contact this tick. -/
def model8 : Model :=
  { rng := rngFalse
    agents := [agentA8, agentB8]
    food := []
    poison := [poisonAt0]
    minimum_food_count := 0
    minimum_poison_count := 0
    minimum_agent_count := 0
    follow_mouse := false }

/-- C8 counterexample: one tick of a two-agent population in which the
first agent (age 10) dies of poison contact and the second (age 20)
survives.  The exposed statistic is (10+1 + 20+1)/2 = 16, but the mean
age of the still-live agents at the end of the tick is 21: the statistic
counts the dead agent too, refuting the claim. -/
theorem average_age_includes_dead_agents_cex :
    (Main.update model8 1 ⟨0, 0⟩ 1000 1000).2 = some 16 ∧
    ((Main.update model8 1 ⟨0, 0⟩ 1000 1000).1.agents.map fun a => a.age) = [21] ∧
    (16 : ℝ) ≠ 21 := by
  refine ⟨?_, ?_, by norm_num⟩ <;>
    norm_num [Main.update, agentsPass, processAgent, poisonPass, foodBranch,
      replenishFood, replenishPoison, replenishAgents, model8, agentA8, agentB8,
      agentW, dnaW, poisonAt0, SteeringAgent.update, SteeringAgent.update_hunger,
      SteeringAgent.update_position, SteeringAgent.wander, SteeringAgent.arrive,
      SteeringAgent.apply_force, SteeringAgent.new, Rng.genBool, rngFalse,
      V2.distanceSq, V2.lengthSq]

/-- C8 witness: the amended theorem applied at a concrete model (the C2
fixture, whose follow flag is off and which has one agent of age 0). -/
theorem average_age_formula_witness :
    modelPoison.follow_mouse = false ∧
    (Main.update modelPoison 1 ⟨0, 0⟩ 100 100).2 =
      (if modelPoison.agents.length = 0 then none
        else some (((modelPoison.agents.map fun a => a.age + 1).sum) /
          (modelPoison.agents.length : ℝ))) :=
  ⟨rfl, (average_age_formula modelPoison 1 ⟨0, 0⟩ 100 100).1 rfl⟩
